import Mathlib

/-!
Verification of the bulk_extractor image-abstraction + scanner core.

This file shallowly embeds the code of `image_process.cpp` (raw / split-raw
image source and the source factory), `pcap_writer.cpp`, `scan_windirs.cpp`
and `scan_facebook.cpp` as executable Lean definitions, and proves or refutes
the specification claims about them.

Conventions: machine bytes are `Nat` values below 256; byte buffers are
`List Nat`; C++ functions that throw become `Except`/sum results; external
file contents are passed in as explicit data.
-/

set_option maxHeartbeats 1000000
set_option maxRecDepth 8000

namespace BulkExtractor

/-! ## process_raw: split-raw segments (image_process.cpp lines 591-810)

A `file_info` records one raw segment: an identifier standing for its path,
its global offset in the assembled image, and its length in bytes.  Byte
contents of the underlying files are supplied separately as a function
`content : Nat → Nat → Nat` (file identifier, local byte offset ↦ byte),
since the C++ reads them through the OS. -/

structure file_info where
  name : Nat
  offset : Nat
  length : Nat
deriving DecidableEq

/-- `fi` contains global offset `pos`: `fi.offset <= pos < fi.offset + fi.length`. -/
def seg_contains (fi : file_info) (pos : Nat) : Prop :=
  fi.offset ≤ pos ∧ pos < fi.offset + fi.length

instance (fi : file_info) (pos : Nat) : Decidable (seg_contains fi pos) := by
  unfold seg_contains; infer_instance

/-- `process_raw::find_offset`: linear scan for the segment containing `pos`;
`none` models the C++ null return. -/
def find_offset (segs : List file_info) (pos : Nat) : Option file_info :=
  match segs with
  | [] => none
  | fi :: rest => if seg_contains fi pos then some fi else find_offset rest pos

/-- `process_raw::add_file`: push a segment at the current end of the image and
grow `raw_filesize`.  State is `(file_list, raw_filesize)`. -/
def add_file (st : List file_info × Nat) (f : Nat × Nat) : List file_info × Nat :=
  (st.1 ++ [⟨f.1, st.2, f.2⟩], st.2 + f.2)

/-- `process_raw::open`: add the primary file and every discovered multipart
segment in order.  `files` is the ordered list of (path id, file size) pairs
that the probe loop finds. -/
def openFiles (files : List (Nat × Nat)) : List file_info × Nat :=
  files.foldl add_file ([], 0)

/-- One successful `::pread64` on segment `fi` at local offset `l`: a regular
file returns `min n (fi.length - l)` bytes starting at `l`. -/
def segRead (content : Nat → Nat → Nat) (fi : file_info) (l n : Nat) : List Nat :=
  (List.range (min n (fi.length - l))).map (fun i => content fi.name (l + i))

/-- `process_raw::pread` (image_process.cpp lines 655-724): locate the segment
containing `off` (`[]` models the `return 0` when there is none), read up to
the segment's remaining bytes, and if fewer than `bytes` were obtained recurse
at `off + got` for the remainder; a zero-byte inner read yields `return 0`. -/
def pread (segs : List file_info) (content : Nat → Nat → Nat) (bytes off : Nat) : List Nat :=
  match find_offset segs off with
  | none => []
  | some fi =>
    let got := min bytes (fi.length - (off - fi.offset))
    let r := (List.range got).map (fun i => content fi.name (off - fi.offset + i))
    if _h1 : got = bytes then r
    else if _h2 : got = 0 then []
    else r ++ pread segs content (bytes - got) (off + got)
termination_by bytes
decreasing_by omega

/-- `process_raw::seek_block` (lines 802-810): returns the new `raw_offset`. -/
def seek_block (pagesize raw_filesize block : Nat) : Nat :=
  let b := if block * pagesize > raw_filesize then raw_filesize / pagesize else block
  b * pagesize

/-- Result of `process_raw::sbuf_alloc`: a page buffer (start offset, bufsize,
pagesize), or one of the two thrown errors. -/
inductive SbufAllocResult where
  | page (pos count this_pagesize : Nat)
  | endOfImage
  | readError
deriving DecidableEq

/-- `process_raw::sbuf_alloc` (lines 770-795) as a function of the byte count
`count_read` that `pread` reported (negative models an I/O failure). -/
def sbuf_alloc (pagesize margin raw_filesize raw_offset : Nat) (count_read : Int) :
    SbufAllocResult :=
  let count0 := pagesize + margin
  let count := if raw_filesize < raw_offset + count0 then raw_filesize - raw_offset else count0
  let this_pagesize := if pagesize > count then count else pagesize
  if count_read = 0 then .endOfImage
  else if count_read < 0 then .readError
  else .page raw_offset count this_pagesize

/-! ### Invariants of the segment list built by `open` -/

/-- The segment list `open` builds from base offset `base` onward. -/
def buildAux (base : Nat) : List (Nat × Nat) → List file_info
  | [] => []
  | f :: rest => ⟨f.1, base, f.2⟩ :: buildAux (base + f.2) rest

/-- Sum of the segment lengths. -/
def segSum (segs : List file_info) : Nat := (segs.map file_info.length).sum

/-- Segments starting exactly at `base`, pairwise contiguous. -/
def segChain : Nat → List file_info → Prop
  | _, [] => True
  | base, fi :: rest => fi.offset = base ∧ segChain (fi.offset + fi.length) rest

theorem foldl_add_file (files : List (Nat × Nat)) :
    ∀ segs0 acc, files.foldl add_file (segs0, acc)
      = (segs0 ++ buildAux acc files, acc + (files.map Prod.snd).sum) := by
  induction files with
  | nil => intro segs0 acc; simp [buildAux]
  | cons f rest ih =>
    intro segs0 acc
    simp only [List.foldl_cons, add_file, ih, buildAux, List.map_cons, List.sum_cons,
      Prod.mk.injEq]
    constructor
    · simp
    · omega

theorem openFiles_eq (files : List (Nat × Nat)) :
    openFiles files = (buildAux 0 files, (files.map Prod.snd).sum) := by
  unfold openFiles
  rw [foldl_add_file]
  simp

theorem segSum_buildAux (files : List (Nat × Nat)) :
    ∀ base, segSum (buildAux base files) = (files.map Prod.snd).sum := by
  induction files with
  | nil => intro base; simp [buildAux, segSum]
  | cons f rest ih => intro base; simp [buildAux, segSum, List.map_cons] at ih ⊢; simp [ih]

theorem segChain_buildAux (files : List (Nat × Nat)) :
    ∀ base, segChain base (buildAux base files) := by
  induction files with
  | nil => intro base; trivial
  | cons f rest ih => intro base; exact ⟨rfl, ih (base + f.2)⟩

theorem segChain_offset_ge {segs : List file_info} :
    ∀ {base}, segChain base segs → ∀ fi ∈ segs, base ≤ fi.offset := by
  induction segs with
  | nil => intro base _ fi hfi; cases hfi
  | cons s rest ih =>
    intro base hch fi hfi
    rcases hch with ⟨hoff, hrest⟩
    rcases List.mem_cons.mp hfi with h | h
    · subst h; omega
    · have := ih hrest fi h; omega

theorem segChain_pairwise {segs : List file_info} :
    ∀ {base}, segChain base segs →
      segs.Pairwise (fun a b => a.offset + a.length ≤ b.offset) := by
  induction segs with
  | nil => intro _ _; exact List.Pairwise.nil
  | cons s rest ih =>
    intro base hch
    rcases hch with ⟨_, hrest⟩
    exact List.Pairwise.cons (fun b hb => segChain_offset_ge hrest b hb) (ih hrest)

theorem find_offset_mem {segs : List file_info} {pos : Nat} {fi : file_info} :
    find_offset segs pos = some fi → fi ∈ segs ∧ seg_contains fi pos := by
  induction segs with
  | nil => intro h; cases h
  | cons s rest ih =>
    intro h
    unfold find_offset at h
    by_cases hc : seg_contains s pos
    · rw [if_pos hc] at h
      cases h
      exact ⟨List.mem_cons_self _ _, hc⟩
    · rw [if_neg hc] at h
      rcases ih h with ⟨hmem, hcont⟩
      exact ⟨List.mem_cons_of_mem _ hmem, hcont⟩

theorem find_offset_none_iff (segs : List file_info) (pos : Nat) :
    find_offset segs pos = none ↔ ∀ fi ∈ segs, ¬ seg_contains fi pos := by
  induction segs with
  | nil =>
    constructor
    · intro _ fi hfi; cases hfi
    · intro _; rfl
  | cons s rest ih =>
    unfold find_offset
    by_cases hc : seg_contains s pos
    · rw [if_pos hc]
      constructor
      · intro h; cases h
      · intro h; exact absurd hc (h s (List.mem_cons_self _ _))
    · rw [if_neg hc]
      rw [ih]
      constructor
      · intro h fi hfi
        rcases List.mem_cons.mp hfi with h1 | h1
        · subst h1; exact hc
        · exact h fi h1
      · intro h fi hfi; exact h fi (List.mem_cons_of_mem _ hfi)

theorem find_offset_unique {segs : List file_info} {pos : Nat} {fi : file_info} :
    ∀ {base}, segChain base segs → find_offset segs pos = some fi →
      ∀ fj ∈ segs, seg_contains fj pos → fj = fi := by
  induction segs with
  | nil => intro _ _ h; cases h
  | cons s rest ih =>
    intro base hch h fj hfj hcontj
    rcases hch with ⟨hoff, hrest⟩
    unfold find_offset at h
    by_cases hc : seg_contains s pos
    · rw [if_pos hc] at h
      cases h
      rcases List.mem_cons.mp hfj with h1 | h1
      · exact h1
      · exfalso
        have hge := segChain_offset_ge hrest fj h1
        rcases hcontj with ⟨hj1, hj2⟩
        rcases hc with ⟨hs1, hs2⟩
        omega
    · rw [if_neg hc] at h
      rcases List.mem_cons.mp hfj with h1 | h1
      · subst h1; exact absurd hcontj hc
      · exact ih hrest h fj h1 hcontj

/-- C8: after `process_raw::open()` the segments collected by `add_file` start
at offset 0, are pairwise contiguous (hence ordered by global offset and
non-overlapping), `image_size()` equals the sum of the segment lengths, and
`find_offset(o)` returns the unique segment containing `o`, or null when no
segment contains `o`. -/
theorem raw_open_segment_invariants (files : List (Nat × Nat)) :
    (openFiles files).2 = segSum (openFiles files).1
    ∧ segChain 0 (openFiles files).1
    ∧ (openFiles files).1.Pairwise (fun a b => a.offset + a.length ≤ b.offset)
    ∧ (∀ pos fi, find_offset (openFiles files).1 pos = some fi →
        fi ∈ (openFiles files).1 ∧ seg_contains fi pos
        ∧ ∀ fj ∈ (openFiles files).1, seg_contains fj pos → fj = fi)
    ∧ (∀ pos, find_offset (openFiles files).1 pos = none ↔
        ∀ fi ∈ (openFiles files).1, ¬ seg_contains fi pos) := by
  rw [openFiles_eq]
  refine ⟨?_, ?_, ?_, ?_, ?_⟩
  · simp [segSum_buildAux]
  · exact segChain_buildAux files 0
  · exact segChain_pairwise (segChain_buildAux files 0)
  · intro pos fi h
    rcases find_offset_mem h with ⟨hmem, hcont⟩
    exact ⟨hmem, hcont, find_offset_unique (segChain_buildAux files 0) h⟩
  · intro pos
    exact find_offset_none_iff _ pos

/-- Witness for C8 at a concrete split image of sizes 3 and 2: offset 4 lies in
the second segment. -/
theorem raw_open_segment_invariants_witness :
    (⟨1, 3, 2⟩ : file_info) ∈ (openFiles [(0, 3), (1, 2)]).1
    ∧ seg_contains ⟨1, 3, 2⟩ 4 :=
  ((raw_open_segment_invariants [(0, 3), (1, 2)]).2.2.2.1 4 ⟨1, 3, 2⟩ (by decide)).imp
    id (fun h => h.1)

/-! ### C1: pread across a split boundary -/

/-- Segment list of the three-part 1 MiB split image `img.000/.001/.002`. -/
def segs3MiB : List file_info := [⟨0, 0, 2^20⟩, ⟨1, 2^20, 2^20⟩, ⟨2, 2^21, 2^20⟩]

/-- C1: `process_raw::pread(dst, n, off)` returns 0 bytes when no segment
contains `off`; otherwise it reads the containing segment and recursively
reads the remainder at `off + got`, so on three 1 MiB segments a `pread` of
512 bytes at offset `1MiB - 256` returns exactly 512 bytes: the last 256
bytes of the first segment followed by the first 256 bytes of the second. -/
theorem pread_split_boundary :
    (∀ (segs : List file_info) (content : Nat → Nat → Nat) (bytes off : Nat),
      find_offset segs off = none → pread segs content bytes off = [])
    ∧ ∀ content : Nat → Nat → Nat,
        pread segs3MiB content 512 (2^20 - 256)
          = (List.range 256).map (fun i => content 0 (2^20 - 256 + i))
            ++ (List.range 256).map (fun i => content 1 i)
        ∧ (pread segs3MiB content 512 (2^20 - 256)).length = 512 := by
  constructor
  · intro segs content bytes off h
    unfold pread
    rw [h]
  · intro content
    have hmain : pread segs3MiB content 512 (2^20 - 256)
        = (List.range 256).map (fun i => content 0 (2^20 - 256 + i))
          ++ (List.range 256).map (fun i => content 1 i) := by
      have hf1 : find_offset segs3MiB (2^20 - 256) = some ⟨0, 0, 2^20⟩ := by decide
      have hf2 : find_offset segs3MiB 1048576 = some ⟨1, 1048576, 1048576⟩ := by decide
      rw [pread, hf1]
      norm_num
      rw [pread, hf2]
      norm_num
    refine ⟨hmain, ?_⟩
    rw [hmain]
    simp

/-- Witness for C1: on an empty segment list no offset is found and `pread`
returns 0 bytes. -/
theorem pread_split_boundary_witness :
    pread [] (fun _ _ => 0) 7 0 = [] :=
  pread_split_boundary.1 [] (fun _ _ => 0) 7 0 rfl

/-! ### C5: seek_block -/

/-- Counterexample to C5 as stated: with `pagesize = 10`, image size 25 and
block 3, `seek_block` sets `raw_offset` to 20 (the start of the last partial
block), not to `min(3 * 10, 25) = 25`. -/
theorem seek_block_not_min_counterexample :
    seek_block 10 25 3 = 20 ∧ seek_block 10 25 3 ≠ min (3 * 10) 25 := by
  decide

/-- C5 (amended): `seek_block(b)` sets `raw_offset` to
`min(b * pagesize, (size() / pagesize) * pagesize)` — `b * pagesize` when that
does not pass the image size, and otherwise the start of the last
(possibly partial) block, which is `min(b * pagesize, size())` only when
`pagesize` divides `size()`. -/
theorem seek_block_sets_offset (pagesize raw_filesize block : Nat) :
    seek_block pagesize raw_filesize block
      = min (block * pagesize) (raw_filesize / pagesize * pagesize) := by
  unfold seek_block
  dsimp only
  by_cases h : block * pagesize > raw_filesize
  · rw [if_pos h]
    have h1 : raw_filesize / pagesize * pagesize ≤ raw_filesize :=
      Nat.div_mul_le_self raw_filesize pagesize
    omega
  · rw [if_neg h]
    push_neg at h
    rcases Nat.eq_zero_or_pos pagesize with hps | hps
    · subst hps; simp
    · have h2 : block ≤ raw_filesize / pagesize := (Nat.le_div_iff_mul_le hps).mpr h
      have h3 : block * pagesize ≤ raw_filesize / pagesize * pagesize :=
        Nat.mul_le_mul_right pagesize h2
      omega

/-! ### C4: sbuf_alloc error behaviour -/

/-- Counterexample to C4 as stated: requesting `count = min(16+4, 100) = 20`
bytes and getting a short (but positive) read of 5 bytes does **not** fail
with ReadError — `process_raw::sbuf_alloc` only tests `count_read == 0` and
`count_read < 0`, so the short read yields a page buffer. -/
theorem sbuf_alloc_short_read_counterexample :
    sbuf_alloc 16 4 100 0 5 = .page 0 20 16 ∧ sbuf_alloc 16 4 100 0 5 ≠ .readError := by
  decide

/-- C4 (amended): `process_raw::sbuf_alloc` requests
`min(pagesize + margin, size - offset)` bytes (`pagesize + margin` clipped to
the end of the image), fails with EndOfImage exactly on a zero-byte read,
fails with ReadError exactly when `pread` reports a negative count (an I/O
error — a short positive read is not detected), and otherwise returns a fresh
page buffer of the clipped size. -/
theorem sbuf_alloc_behaviour (pagesize margin raw_filesize raw_offset : Nat)
    (count_read : Int) (hoff : raw_offset ≤ raw_filesize) :
    (sbuf_alloc pagesize margin raw_filesize raw_offset count_read = .endOfImage
      ↔ count_read = 0)
    ∧ (sbuf_alloc pagesize margin raw_filesize raw_offset count_read = .readError
      ↔ count_read < 0)
    ∧ (0 < count_read →
        sbuf_alloc pagesize margin raw_filesize raw_offset count_read
          = .page raw_offset (min (pagesize + margin) (raw_filesize - raw_offset))
              (min pagesize (min (pagesize + margin) (raw_filesize - raw_offset)))) := by
  have hcount : (if raw_filesize < raw_offset + (pagesize + margin)
        then raw_filesize - raw_offset else pagesize + margin)
      = min (pagesize + margin) (raw_filesize - raw_offset) := by
    split <;> omega
  have htp : ∀ c : Nat, (if pagesize > c then c else pagesize) = min pagesize c := by
    intro c; split <;> omega
  unfold sbuf_alloc
  dsimp only
  simp only [hcount]
  simp only [htp]
  by_cases h0 : count_read = 0
  · simp [h0]
  · by_cases hneg : count_read < 0
    · rw [if_neg h0, if_pos hneg]
      exact ⟨⟨fun h => SbufAllocResult.noConfusion h, fun h => absurd h h0⟩,
             ⟨fun _ => hneg, fun _ => rfl⟩,
             fun hpos => absurd hneg (by omega)⟩
    · rw [if_neg h0, if_neg hneg]
      exact ⟨⟨fun h => SbufAllocResult.noConfusion h, fun h => absurd h h0⟩,
             ⟨fun h => SbufAllocResult.noConfusion h, fun h => absurd h hneg⟩,
             fun _ => rfl⟩

/-- Witness for C4 at `pagesize = 16`, `margin = 4`, a 100-byte image, offset 0
and a full 20-byte read. -/
theorem sbuf_alloc_behaviour_witness :
    sbuf_alloc 16 4 100 0 20 = .page 0 20 16 :=
  (sbuf_alloc_behaviour 16 4 100 0 20 (by decide)).2.2 (by decide)

/-! ## pcap_writer (pcap_writer.cpp lines 997-1070)

The output file is modelled as the list of bytes written so far together with
the `fcap != 0` flag.  `pcap_write2` / `pcap_write4` are declared in
`pcap_writer.h`, which is not part of the sources here; they are modelled from
the spec: the PCAP output is little-endian on all platforms. -/

/-- Modelled from the spec: `pcap_write2` (pcap_writer.h, not in src) writes a
16-bit value little-endian. -/
def pcap_write2 (v : Nat) : List Nat := [v % 256, v / 256 % 256]

/-- Modelled from the spec: `pcap_write4` (pcap_writer.h, not in src) writes a
32-bit value little-endian. -/
def pcap_write4 (v : Nat) : List Nat :=
  [v % 256, v / 256 % 256, v / 65536 % 256, v / 16777216 % 256]

/-- Modelled from the spec: `PCAP_MAX_PKT_LEN` (pcap_writer.h, not in src),
the libpcap snaplen; the conventional value 65535. -/
def PCAP_MAX_PKT_LEN : Nat := 65535

/-- Link type `DLT_EN10MB`. -/
def DLT_EN10MB : Nat := 1

/-- `sizeof(forged_header)`: a 14-byte Ethernet II header. -/
def ETHER_HEAD_LEN : Nat := 14

/-- The 24-byte libpcap global header written on first use
(pcap_writer.cpp lines 1031-1037). -/
def pcap_file_header : List Nat :=
  pcap_write4 0xa1b2c3d4 ++ pcap_write2 2 ++ pcap_write2 4 ++ pcap_write4 0
    ++ pcap_write4 0 ++ pcap_write4 PCAP_MAX_PKT_LEN ++ pcap_write4 DLT_EN10MB

/-- The `pcap_hdr` record-header argument of `pcap_writepkt`. -/
structure pcap_hdr where
  seconds : Nat
  useconds : Nat
  cap_len : Nat
  pkt_len : Nat

/-- The pcap output file: whether `fcap` has been opened, and the bytes
written so far. -/
structure PcapFile where
  opened : Bool
  bytes : List Nat
deriving DecidableEq

/-- `pcap_writer::pcap_writepkt` (lines 1018-1070): open the file and write
the global header on first use; forge a 14-byte Ethernet II header when
requested and `cap_len + ETHER_HEAD_LEN <= PCAP_MAX_PKT_LEN`; write the
record header (lengths include the forged header), the forged header, and
`cap_len` packet bytes copied from the sbuf at `pos`. -/
def pcap_writepkt (st : PcapFile) (h : pcap_hdr) (sbuf : List Nat) (pos : Nat)
    (add_frame : Bool) (frame_type : Nat) : PcapFile :=
  let st1 := if st.opened then st else ⟨true, st.bytes ++ pcap_file_header⟩
  let add_frame_and_safe := add_frame && decide (h.cap_len + ETHER_HEAD_LEN ≤ PCAP_MAX_PKT_LEN)
  let forged_header : List Nat :=
    if add_frame_and_safe then
      List.replicate 12 0 ++ [frame_type / 256 % 256, frame_type % 256]
    else []
  let record_bytes :=
    pcap_write4 h.seconds ++ pcap_write4 h.useconds
      ++ pcap_write4 (h.cap_len + forged_header.length)
      ++ pcap_write4 (h.pkt_len + forged_header.length)
      ++ forged_header ++ (sbuf.drop pos).take h.cap_len
  ⟨true, st1.bytes ++ record_bytes⟩

/-- Counterexample to C2 as stated: for the single synthesized 60-byte packet
with `frame_type = 0x0800` the file is indeed 114 bytes, but byte 38 is the
third byte of the little-endian `orig_len` field (74 = 0x4A 00 00 00), i.e.
0x00, not 0x08; the 0x08 of the synthetic type field sits at byte
52 = 24 + 16 + 12. -/
theorem pcap_writepkt_byte38_counterexample :
    (pcap_writepkt ⟨false, []⟩ ⟨0, 0, 60, 60⟩ (List.replicate 200 65) 100 true 2048).bytes.length
      = 114
    ∧ (pcap_writepkt ⟨false, []⟩ ⟨0, 0, 60, 60⟩ (List.replicate 200 65) 100 true 2048).bytes.getD
        38 0 = 0
    ∧ (pcap_writepkt ⟨false, []⟩ ⟨0, 0, 60, 60⟩ (List.replicate 200 65) 100 true 2048).bytes.getD
        38 0 ≠ 8 := by
  decide

/-- Byte 52 of the synthesized-packet file layout, for any 4-byte record
header fields. -/
theorem getD52_aux (a b c d : List Nat) (ha : a.length = 4) (hb : b.length = 4)
    (hc : c.length = 4) (hd : d.length = 4) (tail : List Nat) :
    (pcap_file_header ++ (a ++ (b ++ (c ++ (d ++ (List.replicate 12 0 ++ 8 :: tail)))))).getD
      52 0 = 8 := by
  rw [List.getD_append_right _ _ 0 52 (by decide)]
  rw [show (52 : Nat) - pcap_file_header.length = 28 from by decide]
  rw [List.getD_append_right a _ 0 28 (by omega)]
  rw [show (28 : Nat) - a.length = 24 from by omega]
  rw [List.getD_append_right b _ 0 24 (by omega)]
  rw [show (24 : Nat) - b.length = 20 from by omega]
  rw [List.getD_append_right c _ 0 20 (by omega)]
  rw [show (20 : Nat) - c.length = 16 from by omega]
  rw [List.getD_append_right d _ 0 16 (by omega)]
  rw [show (16 : Nat) - d.length = 12 from by omega]
  rw [List.getD_append_right (List.replicate 12 0) _ 0 12 (by simp)]
  rw [show (12 : Nat) - (List.replicate 12 (0 : Nat)).length = 0 from by simp]
  rfl

/-- C2 (amended): the global header written on first use is the 24-byte
libpcap header (magic 0xA1B2C3D4, major 2, minor 4, tz 0, sigfigs 0, snaplen
`PCAP_MAX_PKT_LEN`, linktype 1, all little-endian); when synthesis is
requested and `cap_len + 14 <= PCAP_MAX_PKT_LEN` a 14-byte Ethernet header
(12 zero bytes, 2-byte big-endian type) is prepended and both record-header
length fields include the extra 14, otherwise synthesis is silently skipped;
one synthesized 60-byte packet with `frame_type = 0x0800` yields a 114-byte
file whose byte **52** (offset 12 into the synthetic header) equals 0x08. -/
theorem pcap_writepkt_behaviour :
    pcap_file_header
        = [0xd4, 0xc3, 0xb2, 0xa1, 2, 0, 4, 0, 0, 0, 0, 0, 0, 0, 0, 0,
           0xff, 0xff, 0, 0, 1, 0, 0, 0]
    ∧ (∀ (st : PcapFile) (h : pcap_hdr) (sbuf : List Nat) (pos ft : Nat),
        h.cap_len + ETHER_HEAD_LEN ≤ PCAP_MAX_PKT_LEN →
        pcap_writepkt st h sbuf pos true ft
          = ⟨true, (if st.opened then st.bytes else st.bytes ++ pcap_file_header)
              ++ (pcap_write4 h.seconds ++ pcap_write4 h.useconds
                  ++ pcap_write4 (h.cap_len + 14) ++ pcap_write4 (h.pkt_len + 14)
                  ++ ((List.replicate 12 0 ++ [ft / 256 % 256, ft % 256])
                      ++ (sbuf.drop pos).take h.cap_len))⟩)
    ∧ (∀ (st : PcapFile) (h : pcap_hdr) (sbuf : List Nat) (pos ft : Nat) (af : Bool),
        af = false ∨ PCAP_MAX_PKT_LEN < h.cap_len + ETHER_HEAD_LEN →
        pcap_writepkt st h sbuf pos af ft
          = ⟨true, (if st.opened then st.bytes else st.bytes ++ pcap_file_header)
              ++ (pcap_write4 h.seconds ++ pcap_write4 h.useconds
                  ++ pcap_write4 h.cap_len ++ pcap_write4 h.pkt_len
                  ++ (sbuf.drop pos).take h.cap_len)⟩)
    ∧ (∀ (s u : Nat) (sbuf : List Nat), 160 ≤ sbuf.length →
        (pcap_writepkt ⟨false, []⟩ ⟨s, u, 60, 60⟩ sbuf 100 true 2048).bytes.length = 114
        ∧ (pcap_writepkt ⟨false, []⟩ ⟨s, u, 60, 60⟩ sbuf 100 true 2048).bytes.getD 52 0
            = 8) := by
  have hw4len : ∀ v, (pcap_write4 v).length = 4 := fun v => rfl
  have hsynth : ∀ (st : PcapFile) (h : pcap_hdr) (sbuf : List Nat) (pos ft : Nat),
      h.cap_len + ETHER_HEAD_LEN ≤ PCAP_MAX_PKT_LEN →
      pcap_writepkt st h sbuf pos true ft
        = ⟨true, (if st.opened then st.bytes else st.bytes ++ pcap_file_header)
            ++ (pcap_write4 h.seconds ++ pcap_write4 h.useconds
                ++ pcap_write4 (h.cap_len + 14) ++ pcap_write4 (h.pkt_len + 14)
                ++ ((List.replicate 12 0 ++ [ft / 256 % 256, ft % 256])
                    ++ (sbuf.drop pos).take h.cap_len))⟩ := by
    intro st h sbuf pos ft hsafe
    unfold pcap_writepkt
    dsimp only
    simp only [Bool.true_and, decide_eq_true_eq, if_pos hsafe]
    simp [List.append_assoc]
    split <;> rfl
  refine ⟨by decide, hsynth, ?_, ?_⟩
  · intro st h sbuf pos ft af hskip
    unfold pcap_writepkt
    dsimp only
    have hcond : (af && decide (h.cap_len + ETHER_HEAD_LEN ≤ PCAP_MAX_PKT_LEN)) = false := by
      rcases hskip with h1 | h1
      · simp [h1]
      · simp [Nat.not_le.mpr h1]
    rw [hcond]
    simp [List.append_assoc]
    split <;> rfl
  · intro s u sbuf hlen
    rw [hsynth ⟨false, []⟩ ⟨s, u, 60, 60⟩ sbuf 100 2048
      (by norm_num [ETHER_HEAD_LEN, PCAP_MAX_PKT_LEN])]
    dsimp only
    have hne : (if (false : Bool) = true then ([] : List Nat) else [] ++ pcap_file_header)
        = pcap_file_header := rfl
    rw [hne]
    have h24 : pcap_file_header.length = 24 := by decide
    constructor
    · simp only [List.length_append, List.length_take, List.length_drop,
        List.length_replicate, hw4len, h24, List.length_cons, List.length_nil]
      omega
    · exact getD52_aux (pcap_write4 s) (pcap_write4 u) (pcap_write4 (60 + 14))
        (pcap_write4 (60 + 14)) (hw4len s) (hw4len u) (hw4len _) (hw4len _)
        (0 :: List.take 60 (List.drop 100 sbuf))

/-- Witness for C2: the synthesis-skip branch at `cap_len` too large to leave
room for the Ethernet header. -/
theorem pcap_writepkt_behaviour_witness :
    pcap_writepkt ⟨true, []⟩ ⟨1, 2, 65530, 65530⟩ [] 0 true 2048
      = ⟨true, pcap_write4 1 ++ pcap_write4 2 ++ pcap_write4 65530 ++ pcap_write4 65530
          ++ ([].drop 0).take 65530⟩ := by
  have := pcap_writepkt_behaviour.2.2.1 ⟨true, []⟩ ⟨1, 2, 65530, 65530⟩ [] 0 2048 true
    (Or.inr (by decide))
  simpa using this

/-! ## image_process::open — the source factory (image_process.cpp lines 915-979) -/

/-- Outcome of the factory: a thrown error, or the source kind constructed.
`invalidInput` is modelled from the spec: the spec's `InvalidInput` error kind;
the code of `image_process::open` never raises it. -/
inductive OpenResult where
  | noSuchFile (msg : String)
  | noSupport (msg : String)
  | invalidInput (msg : String)
  | dirSource
  | ewfSource
  | rawSource
deriving DecidableEq

/-- The characters after the last dot of `s`, or `none` when `s` has no dot
(computed on the reversed character list). -/
def afterLastDot (s : String) : Option (List Char) :=
  let r := s.data.reverse
  if r.any (fun c => c = '.') then some (r.takeWhile (fun c => c ≠ '.')).reverse else none

/-- `std::filesystem::path::extension()` of a plain file name: the final
dot-suffix, including the dot (model of the library call on the names the
factory inspects). -/
def pathExtension (s : String) : String :=
  match afterLastDot s with
  | none => ""
  | some ext => String.mk ('.' :: ext)

/-- `image_process::filename_extension` (lines 158-165): the text after the
last dot, without the dot. -/
def filename_extension (s : String) : String :=
  match afterLastDot s with
  | none => ""
  | some ext => String.mk ext

/-- `::tolower` in the C locale, applied to each character
(`std::transform(ext.begin(), ext.end(), ext.begin(), ::tolower)`). -/
def tolowerChar (c : Char) : Char :=
  if 65 ≤ c.toNat ∧ c.toNat ≤ 90 then Char.ofNat (c.toNat + 32) else c

/-- Lowercased extension. -/
def tolowerString (s : String) : String := String.mk (s.data.map tolowerChar)

/-- Whether `pat` occurs as a contiguous run inside `s`. -/
def listHasInfix (pat : List Char) : List Char → Bool
  | [] => pat.isEmpty
  | c :: cs => pat.isPrefixOf (c :: cs) || listHasInfix pat cs

/-- `fname_string.find(".E01.") != npos`. -/
def containsE01Dot (s : String) : Bool := listHasInfix ".E01.".data s.data

/-- `image_process::open` (lines 915-979): `stat_ok` models a successful
`stat`, `is_dir` models `S_ISDIR`, `entries` are the file names at the top
level of the directory and `have_libewf` whether the build has E01 support.
The per-source `ip->open()` calls always return 0 in the embedded code. -/
def image_process_open (fname : String) (stat_ok is_dir : Bool) (entries : List String)
    (opt_recurse : Bool) (have_libewf : Bool) : OpenResult :=
  if ¬ stat_ok then .noSuchFile fname
  else if is_dir then
    if ¬ opt_recurse then .noSuchFile fname
    else if entries.any (fun p =>
        pathExtension p = ".E01" || pathExtension p = ".000" || pathExtension p = ".001") then
      .noSuchFile fname
    else .dirSource
  else
    if tolowerString (filename_extension fname) = "e01" || containsE01Dot fname then
      if have_libewf then .ewfSource else .noSupport "This program was compiled without E01 support"
    else .rawSource

/-- Counterexample to C3 as stated: with `recurse` set, a directory named
`parts` containing `image.E01` makes the factory throw `NoSuchFile` carrying
the directory path (the offending file is only printed to stderr) — not
`InvalidInput` naming `image.E01`. -/
theorem image_process_open_dir_counterexample :
    image_process_open "parts" true true ["image.E01"] true true = .noSuchFile "parts"
    ∧ image_process_open "parts" true true ["image.E01"] true true
        ≠ .invalidInput "image.E01" := by
  decide

/-- C3 (amended): for a directory path, with `recurse` set the factory fails
with **NoSuchFile** carrying the directory path whenever a top-level entry has
extension `.E01`, `.000` or `.001` (the offending file is named only on
stderr); with `recurse` not set it also fails with NoSuchFile; otherwise a
Directory source is constructed. -/
theorem image_process_open_directory (fname : String) (entries : List String)
    (opt_recurse have_libewf : Bool) :
    (opt_recurse = false →
      image_process_open fname true true entries opt_recurse have_libewf
        = .noSuchFile fname)
    ∧ (opt_recurse = true →
        (∃ p ∈ entries, pathExtension p = ".E01" ∨ pathExtension p = ".000"
            ∨ pathExtension p = ".001") →
        image_process_open fname true true entries opt_recurse have_libewf
          = .noSuchFile fname)
    ∧ (opt_recurse = true →
        (∀ p ∈ entries, pathExtension p ≠ ".E01" ∧ pathExtension p ≠ ".000"
            ∧ pathExtension p ≠ ".001") →
        image_process_open fname true true entries opt_recurse have_libewf
          = .dirSource) := by
  refine ⟨?_, ?_, ?_⟩
  · intro hr
    subst hr
    simp [image_process_open]
  · intro hr hex
    subst hr
    have hany : entries.any (fun p =>
        pathExtension p = ".E01" || pathExtension p = ".000" || pathExtension p = ".001")
          = true := by
      rcases hex with ⟨p, hp, hcase⟩
      refine List.any_eq_true.mpr ⟨p, hp, ?_⟩
      simp only [Bool.or_eq_true, decide_eq_true_eq]
      tauto
    simp [image_process_open, hany]
  · intro hr hall
    subst hr
    have hany : entries.any (fun p =>
        pathExtension p = ".E01" || pathExtension p = ".000" || pathExtension p = ".001")
          = false := by
      rw [List.any_eq_false]
      intro p hp
      simp only [Bool.or_eq_true, decide_eq_true_eq]
      have := hall p hp
      tauto
    simp [image_process_open, hany]

/-- Witness for C3 at a directory containing only `readme.txt`: a Directory
source is constructed. -/
theorem image_process_open_directory_witness :
    image_process_open "tree" true true ["readme.txt"] true false = .dirSource :=
  (image_process_open_directory "tree" ["readme.txt"] true false).2.2 rfl
    (by intro p hp; fin_cases hp; exact ⟨by decide, by decide, by decide⟩)


/-! ## scan_windirs: FAT32 directory-entry validation (scan_windirs.cpp)

A directory entry is a 32-byte buffer, modelled as a `List Nat` of byte
values.  The helpers `fat16int`/`fat32int`, the `FATFS_*` masks and the
date/time range macros live in `tsk3_fatdirs.h`, which is not part of the
sources here; they are modelled from the spec ("FAT-time range check",
"FAT-date range check", the 8.3 character whitelist) following the standard
SleuthKit definitions the header reproduces. -/

/-- Byte `i` of a buffer (0 past the end; all real entries are 32 bytes). -/
def byteAt (b : List Nat) (i : Nat) : Nat := b.getD i 0

/-- `fat16int`: little-endian 16-bit field at byte offset `i`. -/
def fat16 (b : List Nat) (i : Nat) : Nat := byteAt b i + byteAt b (i + 1) * 256

/-- `fat32int(dentry.size)`: little-endian 32-bit size at bytes 28..31. -/
def fat_size (b : List Nat) : Nat :=
  byteAt b 28 + byteAt b 29 * 256 + byteAt b 30 * 65536 + byteAt b 31 * 16777216

/-- `fat32int(dentry.highclust, dentry.startclust)`: cluster number from
startclust (bytes 26..27, low) and highclust (bytes 20..21, high). -/
def fat_cluster (b : List Nat) : Nat :=
  byteAt b 26 + byteAt b 27 * 256 + byteAt b 20 * 65536 + byteAt b 21 * 16777216

/-- `sbuf.is_constant(sbuf[0])`: every byte equals the first one. -/
def is_constant (b : List Nat) : Bool := b.all (fun c => c = byteAt b 0)

/-- Modelled from the spec: `FATFS_IS_83_NAME` from `tsk3_fatdirs.h` (not in
src), the SleuthKit 8.3-legality test the spec calls the character-class
whitelist. -/
def FATFS_IS_83_NAME (c : Nat) : Bool :=
  ! (decide (c < 5) || decide (c = 34) || (decide (42 ≤ c) && decide (c ≤ 44))
     || decide (c = 46) || decide (c = 47) || (decide (58 ≤ c) && decide (c ≤ 63))
     || (decide (91 ≤ c) && decide (c ≤ 93)) || decide (c = 124))

/-- Modelled from the spec: `FATFS_IS_83_EXT`, identical to the name test. -/
def FATFS_IS_83_EXT (c : Nat) : Bool := FATFS_IS_83_NAME c

/-- Modelled from the spec: the FAT-date range check `FATFS_ISDATE` (day > 0,
0 < month < 13). -/
def FATFS_ISDATE (x : Nat) : Bool :=
  decide (0 < (x &&& 0x1f)) && decide (0 < ((x &&& 0x1e0) >>> 5))
    && decide (((x &&& 0x1e0) >>> 5) < 13)

/-- Modelled from the spec: the FAT-time range check `FATFS_ISTIME`
(two-second units < 30, minutes < 60, hours < 24). -/
def FATFS_ISTIME (x : Nat) : Bool :=
  decide ((x &&& 0x1f) < 30) && decide (((x &&& 0x7e0) >>> 5) < 60)
    && decide (((x &&& 0xf800) >>> 11) < 24)

/-- `fat_year` (scan_windirs.cpp lines 96-99): the year field plus 1980. -/
def fat_year (f : Nat) : Nat := ((f &&& 0xfe00) >>> 9) + 1980

/-- Popcount of the low `fuel` bits. -/
def count_bits_aux : Nat → Nat → Nat
  | 0, _ => 0
  | n + 1, x => x % 2 + count_bits_aux n (x / 2)

/-- `count_bits` (lines 102-110): population count of a 32-bit value; the
bit-twiddling in the source computes exactly this. -/
def count_bits (x : Nat) : Nat := count_bits_aux 32 x

/-- `isupper` in the C locale. -/
def c_isupper (c : Nat) : Bool := decide (65 ≤ c) && decide (c ≤ 90)

/-- `isdigit` in the C locale. -/
def c_isdigit (c : Nat) : Bool := decide (48 ≤ c) && decide (c ≤ 57)

/-- The explicit whitelist of lines 68-70: uppercase, digits, space and the
punctuation set. -/
def fat_name_char_ok (c : Nat) : Bool :=
  c_isupper c || c_isdigit c || decide (c = 32) || decide (c = 33) || decide (c = 35)
    || decide (c = 36) || decide (c = 37) || decide (c = 38) || decide (c = 39)
    || decide (c = 40) || decide (c = 41) || decide (c = 45) || decide (c = 64)
    || decide (c = 94) || decide (c = 95) || decide (c = 96) || decide (c = 123)
    || decide (c = 125) || decide (c = 126)

/-- The second validation loop of `valid_fat_dentry_name`: scan until a NUL or
space, rejecting any character outside the whitelist. -/
def fat_name_loop2 : List Nat → Bool
  | [] => true
  | c :: rest =>
    if c = 0 ∨ c = 32 then true
    else if fat_name_char_ok c then fat_name_loop2 rest
    else false

/-- `valid_fat_dentry_name` (lines 46-86): the special `.` / `..` patterns,
then the `FATFS_IS_83_*` loops over all characters, then the whitelist loops
up to the first NUL/space. -/
def valid_fat_dentry_name (b : List Nat) : Bool :=
  let name := (List.range 8).map (byteAt b)
  let ext := (List.range 3).map (fun i => byteAt b (8 + i))
  if name = [46, 32, 32, 32, 32, 32, 32, 32] ∧ ext = [32, 32, 32] then true
  else if name = [46, 46, 32, 32, 32, 32, 32, 32] ∧ ext = [32, 32, 32] then true
  else name.all FATFS_IS_83_NAME && ext.all FATFS_IS_83_EXT
       && fat_name_loop2 name && fat_name_loop2 ext

/-- Return value of `valid_fat_directory_entry` (lines 89-94). -/
inductive fat_validation_t where
  | INVALID
  | VALID_DENTRY
  | VALID_LFN
  | VALID_LAST_DENTRY
  | ALL_NULL
deriving DecidableEq

/-- The windirs tuning parameters (the file-static globals of lines 34-40). -/
structure WindirsConfig where
  opt_weird_file_size : Nat
  opt_weird_file_size2 : Nat
  opt_weird_cluster_count : Nat
  opt_weird_cluster_count2 : Nat
  opt_max_bits_in_attrib : Nat
  opt_max_weird_count : Nat
  opt_last_year : Nat

def CLUSTERS_IN_1GiB : Nat := 2 * 1024 * 1024

/-- The static initializers of lines 34-40 (`opt_last_year` is later reset to
the current year + 5 at INIT; its value is irrelevant to the claims here). -/
def defaultConfig : WindirsConfig :=
  ⟨1024 * 1024 * 150, 1024 * 1024 * 512, 32 * CLUSTERS_IN_1GiB, 128 * CLUSTERS_IN_1GiB,
   3, 2, 2020⟩

/-- The weirdness tally of lines 177-187: one per condition, in source
order. -/
def weird_count (cfg : WindirsConfig) (b : List Nat) : Nat :=
  (if fat_year (fat16 b 16) > cfg.opt_last_year then 1 else 0)
  + (if fat_year (fat16 b 18) > cfg.opt_last_year then 1 else 0)
  + (if fat_size b > cfg.opt_weird_file_size then 1 else 0)
  + (if fat_size b > cfg.opt_weird_file_size2 then 1 else 0)
  + (if count_bits (byteAt b 11) > cfg.opt_max_bits_in_attrib then 1 else 0)
  + (if fat_cluster b > cfg.opt_weird_cluster_count then 1 else 0)
  + (if fat_cluster b > cfg.opt_weird_cluster_count2 then 1 else 0)
  + (if byteAt b 13 ≠ 0 ∧ byteAt b 13 ≠ 100 then 1 else 0)
  + (if fat16 b 18 = 0 ∧ fat16 b 16 = 0 then 1 else 0)
  + (if fat16 b 18 = 0 ∧ fat16 b 24 = 0 then 1 else 0)

/-- `valid_fat_directory_entry` (scan_windirs.cpp lines 122-193).  Field
offsets: attrib 11, ctimeten 13, ctime 14, cdate 16, adate 18, highclust 20,
wtime 22, wdate 24, startclust 26, size 28; for an LFN slot: seq 0,
reserved1 12, `FstClusLO` (reserved2) 26. -/
def valid_fat_directory_entry (cfg : WindirsConfig) (b : List Nat) : fat_validation_t :=
  if b.length ≠ 32 then .INVALID
  else if is_constant b then .ALL_NULL
  else if byteAt b 11 &&& 0xC0 ≠ 0 then .INVALID
  else if byteAt b 11 = 0x0F then
    if byteAt b 0 &&& 0xBF > 10 then .INVALID
    else if byteAt b 12 ≠ 0 then .INVALID
    else if fat16 b 26 ≠ 0 then .INVALID
    else .VALID_LFN
  else if byteAt b 0 = 0 then .VALID_LAST_DENTRY
  else if byteAt b 11 &&& 0x0F = 0x0F then .INVALID
  else if byteAt b 11 &&& 0x10 ≠ 0 ∧ byteAt b 11 &&& 0x20 ≠ 0 then .INVALID
  else if byteAt b 11 &&& 0x40 ≠ 0 then .INVALID
  else if ¬ valid_fat_dentry_name b then .INVALID
  else if byteAt b 13 > 199 then .INVALID
  else if fat16 b 14 ≠ 0 ∧ ¬ FATFS_ISTIME (fat16 b 14) then .INVALID
  else if fat16 b 16 ≠ 0 ∧ ¬ FATFS_ISDATE (fat16 b 16) then .INVALID
  else if fat16 b 18 ≠ 0 ∧ ¬ FATFS_ISDATE (fat16 b 18) then .INVALID
  else if fat16 b 18 = 0 ∧ fat16 b 14 = 0 ∧ fat16 b 16 = 0 then
    (if byteAt b 11 &&& 0x08 ≠ 0 then .VALID_DENTRY else .INVALID)
  else if ¬ FATFS_ISTIME (fat16 b 22) then .INVALID
  else if ¬ FATFS_ISDATE (fat16 b 24) then .INVALID
  else if fat16 b 14 ≠ 0 ∧ fat16 b 14 = fat16 b 16 then .INVALID
  else if fat16 b 22 ≠ 0 ∧ fat16 b 22 = fat16 b 24 then .INVALID
  else if fat16 b 18 ≠ 0 ∧ fat16 b 18 = fat16 b 14 then .INVALID
  else if fat16 b 18 ≠ 0 ∧ fat16 b 18 = fat16 b 22 then .INVALID
  else if weird_count cfg b > cfg.opt_max_weird_count then .INVALID
  else .VALID_DENTRY


/-- A 32-byte volume-label entry (`A` + spaces, attrib VOLUME=0x08,
ctimeten 50, highclust/startclust 0xFFFF/0xFFFF, size 0xFFFFFFFF,
ctime = cdate = adate = wtime = wdate = 0). -/
def cexVolumeEntry : List Nat :=
  [65, 32, 32, 32, 32, 32, 32, 32, 32, 32, 32, 8, 0, 50, 0, 0, 0, 0, 0, 0,
   255, 255, 0, 0, 0, 0, 255, 255, 255, 255, 255, 255]

/-- Like `cexVolumeEntry` but with `cdate = 1980-01-01` (bytes 16..17), so the
volume-label early return of line 163 is not taken. -/
def cexWeirdEntry : List Nat :=
  [65, 32, 32, 32, 32, 32, 32, 32, 32, 32, 32, 8, 0, 50, 0, 0, 33, 0, 0, 0,
   255, 255, 0, 0, 0, 0, 255, 255, 255, 255, 255, 255]

/-- Counterexample to C6 as stated: `cexVolumeEntry` has cluster >
`opt_weird_cluster_count2`, size > `opt_weird_file_size2` and `ctimeten = 50`,
so its weird-count is at least 3 > 2, yet `valid_fat_directory_entry`
**accepts** it: the volume-label early return (`adate == ctime == cdate == 0`
with the VOLUME attribute, line 163) fires before the weirdness tally is
evaluated. -/
theorem valid_fat_weird_cutoff_counterexample :
    valid_fat_directory_entry defaultConfig cexVolumeEntry = .VALID_DENTRY
    ∧ fat_cluster cexVolumeEntry > defaultConfig.opt_weird_cluster_count2
    ∧ fat_size cexVolumeEntry > defaultConfig.opt_weird_file_size2
    ∧ byteAt cexVolumeEntry 13 = 50
    ∧ 3 ≤ weird_count defaultConfig cexVolumeEntry := by
  decide

/-- C6 (amended): whenever the weirdness tally is reached — i.e. the entry is
not accepted early as a volume label with `adate = ctime = cdate = 0` — an
entry whose weird-count exceeds `opt_max_weird_count` is rejected; in
particular an entry that is not such a volume label with cluster >
`opt_weird_cluster_count2`, size > `opt_weird_file_size2` and `ctimeten = 50`
has weird-count at least 3 > 2 and is not accepted as a short dentry. -/
theorem valid_fat_weird_cutoff :
    (∀ (cfg : WindirsConfig) (b : List Nat),
        valid_fat_directory_entry cfg b = .VALID_DENTRY →
        (fat16 b 18 = 0 ∧ fat16 b 14 = 0 ∧ fat16 b 16 = 0)
          ∨ weird_count cfg b ≤ cfg.opt_max_weird_count)
    ∧ (∀ b : List Nat,
        ¬ (fat16 b 18 = 0 ∧ fat16 b 14 = 0 ∧ fat16 b 16 = 0) →
        fat_cluster b > defaultConfig.opt_weird_cluster_count2 →
        fat_size b > defaultConfig.opt_weird_file_size2 →
        byteAt b 13 = 50 →
        3 ≤ weird_count defaultConfig b
          ∧ valid_fat_directory_entry defaultConfig b ≠ .VALID_DENTRY) := by
  have general : ∀ (cfg : WindirsConfig) (b : List Nat),
      valid_fat_directory_entry cfg b = .VALID_DENTRY →
      (fat16 b 18 = 0 ∧ fat16 b 14 = 0 ∧ fat16 b 16 = 0)
        ∨ weird_count cfg b ≤ cfg.opt_max_weird_count := by
    intro cfg b h
    unfold valid_fat_directory_entry at h
    by_cases c1 : b.length ≠ 32
    · rw [if_pos c1] at h
      exact fat_validation_t.noConfusion h
    rw [if_neg c1] at h
    by_cases c2 : is_constant b = true
    · rw [if_pos c2] at h
      exact fat_validation_t.noConfusion h
    rw [if_neg c2] at h
    by_cases c3 : byteAt b 11 &&& 192 ≠ 0
    · rw [if_pos c3] at h
      exact fat_validation_t.noConfusion h
    rw [if_neg c3] at h
    by_cases c4 : byteAt b 11 = 15
    · rw [if_pos c4] at h
      iterate 3
        all_goals try split at h
      all_goals exact fat_validation_t.noConfusion h
    rw [if_neg c4] at h
    by_cases c5 : byteAt b 0 = 0
    · rw [if_pos c5] at h
      exact fat_validation_t.noConfusion h
    rw [if_neg c5] at h
    by_cases c6 : byteAt b 11 &&& 15 = 15
    · rw [if_pos c6] at h
      exact fat_validation_t.noConfusion h
    rw [if_neg c6] at h
    by_cases c7 : byteAt b 11 &&& 16 ≠ 0 ∧ byteAt b 11 &&& 32 ≠ 0
    · rw [if_pos c7] at h
      exact fat_validation_t.noConfusion h
    rw [if_neg c7] at h
    by_cases c8 : byteAt b 11 &&& 64 ≠ 0
    · rw [if_pos c8] at h
      exact fat_validation_t.noConfusion h
    rw [if_neg c8] at h
    by_cases c9 : ¬valid_fat_dentry_name b = true
    · rw [if_pos c9] at h
      exact fat_validation_t.noConfusion h
    rw [if_neg c9] at h
    by_cases c10 : byteAt b 13 > 199
    · rw [if_pos c10] at h
      exact fat_validation_t.noConfusion h
    rw [if_neg c10] at h
    by_cases c11 : fat16 b 14 ≠ 0 ∧ ¬FATFS_ISTIME (fat16 b 14) = true
    · rw [if_pos c11] at h
      exact fat_validation_t.noConfusion h
    rw [if_neg c11] at h
    by_cases c12 : fat16 b 16 ≠ 0 ∧ ¬FATFS_ISDATE (fat16 b 16) = true
    · rw [if_pos c12] at h
      exact fat_validation_t.noConfusion h
    rw [if_neg c12] at h
    by_cases c13 : fat16 b 18 ≠ 0 ∧ ¬FATFS_ISDATE (fat16 b 18) = true
    · rw [if_pos c13] at h
      exact fat_validation_t.noConfusion h
    rw [if_neg c13] at h
    by_cases c14 : fat16 b 18 = 0 ∧ fat16 b 14 = 0 ∧ fat16 b 16 = 0
    · rw [if_pos c14] at h
      exact Or.inl c14
    rw [if_neg c14] at h
    by_cases c15 : ¬FATFS_ISTIME (fat16 b 22) = true
    · rw [if_pos c15] at h
      exact fat_validation_t.noConfusion h
    rw [if_neg c15] at h
    by_cases c16 : ¬FATFS_ISDATE (fat16 b 24) = true
    · rw [if_pos c16] at h
      exact fat_validation_t.noConfusion h
    rw [if_neg c16] at h
    by_cases c17 : fat16 b 14 ≠ 0 ∧ fat16 b 14 = fat16 b 16
    · rw [if_pos c17] at h
      exact fat_validation_t.noConfusion h
    rw [if_neg c17] at h
    by_cases c18 : fat16 b 22 ≠ 0 ∧ fat16 b 22 = fat16 b 24
    · rw [if_pos c18] at h
      exact fat_validation_t.noConfusion h
    rw [if_neg c18] at h
    by_cases c19 : fat16 b 18 ≠ 0 ∧ fat16 b 18 = fat16 b 14
    · rw [if_pos c19] at h
      exact fat_validation_t.noConfusion h
    rw [if_neg c19] at h
    by_cases c20 : fat16 b 18 ≠ 0 ∧ fat16 b 18 = fat16 b 22
    · rw [if_pos c20] at h
      exact fat_validation_t.noConfusion h
    rw [if_neg c20] at h
    by_cases c21 : weird_count cfg b > cfg.opt_max_weird_count
    · rw [if_pos c21] at h
      exact fat_validation_t.noConfusion h
    exact Or.inr (by omega)
  refine ⟨general, ?_⟩
  intro b hnz hclu hsz hct
  have hc2 : defaultConfig.opt_weird_cluster_count2 = 268435456 := rfl
  have hc1 : defaultConfig.opt_weird_cluster_count = 67108864 := rfl
  have hs2 : defaultConfig.opt_weird_file_size2 = 536870912 := rfl
  have hs1 : defaultConfig.opt_weird_file_size = 157286400 := rfl
  have hmax : defaultConfig.opt_max_weird_count = 2 := rfl
  have hw : 3 ≤ weird_count defaultConfig b := by
    unfold weird_count
    rw [hc1, hc2, hs1, hs2]
    rw [if_pos (show fat_size b > 157286400 by omega),
        if_pos (show fat_size b > 536870912 by omega),
        if_pos (show fat_cluster b > 67108864 by omega),
        if_pos (show fat_cluster b > 268435456 by omega),
        if_pos (show byteAt b 13 ≠ 0 ∧ byteAt b 13 ≠ 100 by omega)]
    omega
  refine ⟨hw, ?_⟩
  intro h
  rcases general defaultConfig b h with hvol | hle
  · exact hnz hvol
  · rw [hmax] at hle
    omega

/-- Witness for C6 at `cexWeirdEntry`: the entry tallies at least 3 weird
points and is rejected. -/
theorem valid_fat_weird_cutoff_witness :
    3 ≤ weird_count defaultConfig cexWeirdEntry
    ∧ valid_fat_directory_entry defaultConfig cexWeirdEntry ≠ .VALID_DENTRY :=
  valid_fat_weird_cutoff.2 cexWeirdEntry (by decide) (by decide) (by decide) (by decide)


/-! ## scan_facebook (scan_facebook.cpp)

A page is its byte list (`bufsize = page.length`); an emitted feature is the
`(begin, length)` pair passed to `write_buf`. -/

/-- `used_offsets_t::window` (line 19). -/
def used_window : Nat := 4096

/-- `used_offsets_t::value_used` (lines 21-30): `true` (and no change) when
`value` lies strictly within `window / 2` of a recorded offset; otherwise
record `value` and return `false`. -/
def value_used (offsets : List Int) (value : Int) : Bool × List Int :=
  if offsets.any (fun o => decide (o - 2048 < value) && decide (value < o + 2048)) then
    (true, offsets)
  else (false, offsets ++ [value])

/-- Scan of the suffix `l` (which sits at position `i` of the page) for the
first occurrence of `needle`. -/
def sbuf_find_aux (needle : List Nat) : List Nat → Nat → Option Nat
  | [], _ => none
  | c :: cs, i => if needle.isPrefixOf (c :: cs) then some i else sbuf_find_aux needle cs (i + 1)

/-- `sbuf->find(needle, i)`: index of the first occurrence of `needle` at or
after `i` that fits inside the buffer, if any. -/
def sbuf_find_from (page needle : List Nat) (i : Nat) : Option Nat :=
  sbuf_find_aux needle (page.drop i) i

theorem sbuf_find_aux_found (needle : List Nat) :
    ∀ (l : List Nat) (i loc : Nat), sbuf_find_aux needle l i = some loc →
      i ≤ loc ∧ loc < i + l.length ∧ needle.isPrefixOf (l.drop (loc - i)) = true := by
  intro l
  induction l with
  | nil => intro i loc h; cases h
  | cons c cs ih =>
    intro i loc h
    unfold sbuf_find_aux at h
    by_cases hp : needle.isPrefixOf (c :: cs) = true
    · rw [if_pos hp] at h
      cases h
      refine ⟨Nat.le_refl _, by simp only [List.length_cons]; omega, ?_⟩
      simpa using hp
    · rw [if_neg hp] at h
      rcases ih (i + 1) loc h with ⟨h1, h2, h3⟩
      refine ⟨by omega, by simp only [List.length_cons]; omega, ?_⟩
      have : loc - i = (loc - (i + 1)) + 1 := by omega
      rw [this]
      simpa using h3

theorem sbuf_find_from_found (page needle : List Nat) (i loc : Nat)
    (h : sbuf_find_from page needle i = some loc) :
    i ≤ loc ∧ loc < page.length ∧ needle.isPrefixOf (page.drop loc) = true := by
  rcases sbuf_find_aux_found needle (page.drop i) i loc h with ⟨h1, h2, h3⟩
  rw [List.drop_drop] at h3
  have hlen : (page.drop i).length = page.length - i := List.length_drop i page
  have hloc : i + (loc - i) = loc := by omega
  rw [hloc] at h3
  refine ⟨h1, ?_, h3⟩
  by_cases hi : i ≤ page.length
  · omega
  · unfold sbuf_find_from at h
    rw [List.drop_eq_nil_of_le (by omega)] at h
    cases h

/-- One needle's scan loop (lines 68-82): search from `i`, stop on a find
result below 1, either suppress (proximity deduplication) or emit the clipped
window, and jump the cursor past the window (`i = location + window`, then the
loop increment). -/
def scan_loop (page needle : List Nat) (used : List Int) (i : Nat) :
    List (Nat × Nat) × List Int :=
  if _h50 : i + 50 < page.length then
    match _hf : sbuf_find_from page needle i with
    | none => ([], used)
    | some loc =>
      if loc < 1 then ([], used)
      else
        let vu := value_used used (loc : Int)
        if vu.1 then scan_loop page needle vu.2 (loc + used_window + 1)
        else
          let b := if loc > used_window / 2 then loc - used_window / 2 else 0
          let e0 := b + used_window
          let e := if e0 + 10 > page.length then page.length - 10 else e0
          let rest := scan_loop page needle vu.2 (loc + used_window + 1)
          ((b, e - b) :: rest.1, rest.2)
  else ([], used)
termination_by page.length - i
decreasing_by
  all_goals
    have h1 := sbuf_find_from_found page needle i loc _hf
    omega

/-- The needle table of lines 33-48. -/
def facebook_searches : List (List Nat) :=
  ["hovercard/page", "profile_owner", "actorDescription actorNames",
   "navAccountName", "renderedAuthorList", "pokesText", "id=\"facebook.com\"",
   "OrderedFriendsListInitialData", "mobileFriends", "ShortProfiles",
   "bigPipe.onPageletArrive", "TimelineContentLoader",
   "Facebook is a social utility that connects", "facebook.com/profile.php",
   "timelineUnitContainer"].map (fun s => s.data.map Char.toNat)

/-- The PHASE_SCAN body of `scan_facebook` (lines 62-84): scan each needle in
turn, sharing the per-page `used_offsets` across needles. -/
def scan_needles (page : List Nat) : List (List Nat) → List Int → List (Nat × Nat)
  | [], _ => []
  | nd :: rest, used =>
    let r := scan_loop page nd used 0
    r.1 ++ scan_needles page rest r.2

/-- The features `scan_facebook` emits for one page. -/
def scan_facebook_model (page : List Nat) : List (Nat × Nat) :=
  scan_needles page facebook_searches []


/-! ### Step behaviour of the facebook scan loop -/

theorem value_used_cases (offsets : List Int) (v : Int) :
    (value_used offsets v = (true, offsets)
      ∧ ∃ o ∈ offsets, o - 2048 < v ∧ v < o + 2048)
    ∨ (value_used offsets v = (false, offsets ++ [v])
      ∧ ∀ o ∈ offsets, ¬ (o - 2048 < v ∧ v < o + 2048)) := by
  unfold value_used
  by_cases h : offsets.any (fun o => decide (o - 2048 < v) && decide (v < o + 2048)) = true
  · left
    refine ⟨by rw [if_pos h], ?_⟩
    rcases List.any_eq_true.mp h with ⟨o, ho, hc⟩
    refine ⟨o, ho, ?_⟩
    simpa using hc
  · right
    refine ⟨by rw [if_neg h], ?_⟩
    intro o ho hc
    exact h (List.any_eq_true.mpr ⟨o, ho, by simpa using hc⟩)

theorem scan_loop_stop (page needle : List Nat) (used : List Int) (i : Nat)
    (h : ¬ (i + 50 < page.length)) : scan_loop page needle used i = ([], used) := by
  rw [scan_loop, dif_neg h]

theorem scan_loop_none (page needle : List Nat) (used : List Int) (i : Nat)
    (h50 : i + 50 < page.length) (hf : sbuf_find_from page needle i = none) :
    scan_loop page needle used i = ([], used) := by
  rw [scan_loop, dif_pos h50]
  split
  · rfl
  · next loc2 heq => exact Option.noConfusion (hf.symm.trans heq)

theorem scan_loop_low (page needle : List Nat) (used : List Int) (i loc : Nat)
    (h50 : i + 50 < page.length) (hf : sbuf_find_from page needle i = some loc)
    (hl : loc < 1) : scan_loop page needle used i = ([], used) := by
  rw [scan_loop, dif_pos h50]
  split
  · next heq => exact Option.noConfusion (hf.symm.trans heq)
  · next loc2 heq =>
      have he := Option.some.inj (hf.symm.trans heq)
      subst he
      rw [if_pos hl]

theorem scan_loop_suppress (page needle : List Nat) (used : List Int) (i loc : Nat)
    (h50 : i + 50 < page.length) (hf : sbuf_find_from page needle i = some loc)
    (hl : ¬ loc < 1) (hv : (value_used used (loc : Int)).1 = true) :
    scan_loop page needle used i = scan_loop page needle used (loc + 4096 + 1) := by
  rw [scan_loop, dif_pos h50]
  split
  · next heq => exact Option.noConfusion (hf.symm.trans heq)
  · next loc2 heq =>
      have he := Option.some.inj (hf.symm.trans heq)
      subst he
      rw [if_neg hl]
      dsimp only
      rw [if_pos hv]
      rcases value_used_cases used (loc : Int) with ⟨he2, _⟩ | ⟨he2, _⟩
      · rw [he2]
        rfl
      · rw [he2] at hv
        simp at hv

theorem scan_loop_emit (page needle : List Nat) (used : List Int) (i loc : Nat)
    (h50 : i + 50 < page.length) (hf : sbuf_find_from page needle i = some loc)
    (hl : ¬ loc < 1) (hv : (value_used used (loc : Int)).1 = false) :
    scan_loop page needle used i
      = ((if loc > 2048 then loc - 2048 else 0,
          min ((if loc > 2048 then loc - 2048 else 0) + 4096) (page.length - 10)
            - (if loc > 2048 then loc - 2048 else 0))
          :: (scan_loop page needle (used ++ [(loc : Int)]) (loc + 4096 + 1)).1,
         (scan_loop page needle (used ++ [(loc : Int)]) (loc + 4096 + 1)).2) := by
  rw [scan_loop, dif_pos h50]
  split
  · next heq => exact Option.noConfusion (hf.symm.trans heq)
  · next loc2 heq =>
      have he := Option.some.inj (hf.symm.trans heq)
      subst he
      rw [if_neg hl]
      dsimp only
      rw [if_neg (by rw [hv]; simp)]
      rcases value_used_cases used (loc : Int) with ⟨he2, _⟩ | ⟨he2, _⟩
      · rw [he2] at hv
        simp at hv
      · rw [he2]
        have hwin2 : used_window / 2 = 2048 := rfl
        have hwin : used_window = 4096 := rfl
        rw [hwin2, hwin]
        have hmin : (if (if loc > 2048 then loc - 2048 else 0) + 4096 + 10 > page.length
              then page.length - 10
              else (if loc > 2048 then loc - 2048 else 0) + 4096)
            = min ((if loc > 2048 then loc - 2048 else 0) + 4096) (page.length - 10) := by
          split_ifs <;> omega
        rw [hmin]

/-- The windows emitted by one needle loop: each is anchored at a needle
occurrence `loc ≥ 1`, starts at `max(loc - 2048, 0)` and ends at
`min(start + 4096, bufsize - 10)`. -/
theorem scan_loop_windows (page needle : List Nat) (used : List Int) (i : Nat) :
    ∀ w ∈ (scan_loop page needle used i).1,
      ∃ loc, 1 ≤ loc ∧ needle.isPrefixOf (page.drop loc) = true
        ∧ w.1 = (if loc > 2048 then loc - 2048 else 0)
        ∧ w.1 + w.2 = min (w.1 + 4096) (page.length - 10) := by
  by_cases h50 : i + 50 < page.length
  · cases hf : sbuf_find_from page needle i with
    | none =>
      rw [scan_loop_none page needle used i h50 hf]
      intro w hw
      cases hw
    | some loc =>
      by_cases hl : loc < 1
      · rw [scan_loop_low page needle used i loc h50 hf hl]
        intro w hw
        cases hw
      · by_cases hv : (value_used used (loc : Int)).1 = true
        · rw [scan_loop_suppress page needle used i loc h50 hf hl hv]
          exact scan_loop_windows page needle used (loc + 4096 + 1)
        · rw [scan_loop_emit page needle used i loc h50 hf hl
            (Bool.eq_false_iff.mpr hv)]
          intro w hw
          rcases List.mem_cons.mp hw with hw1 | hw1
          · subst hw1
            rcases sbuf_find_from_found page needle i loc hf with ⟨_, hlt, hpre⟩
            refine ⟨loc, by omega, hpre, rfl, ?_⟩
            dsimp only
            split_ifs <;> omega
          · exact scan_loop_windows page needle (used ++ [(loc : Int)]) (loc + 4096 + 1)
              w hw1
  · rw [scan_loop_stop page needle used i h50]
    intro w hw
    cases hw
termination_by page.length - i
decreasing_by
  all_goals
    have h1 := sbuf_find_from_found page needle i loc hf
    omega


/-- The facebook needle `"pokesText"` as bytes. -/
def fbNeedle : List Nat := "pokesText".data.map Char.toNat

/-- A 100-byte page with the needle at offset 30. -/
def c9page : List Nat := List.replicate 30 0 ++ fbNeedle ++ List.replicate 61 0

/-- Counterexample to C9 as stated: on a 100-byte page with a `pokesText` hit
at offset 30, the emitted window is `(begin = 0, length = 90)` — the window
end is clipped to `bufsize - 10`, ten bytes short of the buffer end, not to
the buffer bounds (which would give length 100). -/
theorem scan_facebook_clip_counterexample :
    fbNeedle ∈ facebook_searches
    ∧ c9page.length = 100
    ∧ scan_loop c9page fbNeedle [] 0 = ([(0, 90)], [(30 : Int)])
    ∧ ∀ w ∈ (scan_loop c9page fbNeedle [] 0).1, w.2 ≠ 100 := by
  have hstep := scan_loop_emit c9page fbNeedle [] 0 30 (by decide) (by decide)
    (by decide) (by decide)
  have hrest := scan_loop_stop c9page fbNeedle [((30 : Nat) : Int)] (30 + 4096 + 1)
    (by decide)
  have hmain : scan_loop c9page fbNeedle [] 0 = ([(0, 90)], [(30 : Int)]) := by
    rw [hstep]
    simp only [List.nil_append]
    rw [hrest]
    decide
  refine ⟨by decide, by decide, hmain, ?_⟩
  intro w hw
  rw [hmain] at hw
  rcases List.mem_cons.mp hw with h1 | h1
  · subst h1; decide
  · cases h1

/-- C9 (amended): `value_used` suppresses a hit strictly within ±2048 bytes of
any previously **recorded** hit of the page (recording it otherwise); a
suppressed hit emits nothing and the cursor jumps by the window width; an
accepted hit emits the window `[max(loc - 2048, 0), min(start + 4096,
bufsize - 10))` — clipped to ten bytes short of the buffer end, not to the
buffer bounds — and the cursor jumps by the window width; every emitted window
has this shape. -/
theorem scan_facebook_window_behaviour :
    (∀ (offsets : List Int) (v : Int),
        ((value_used offsets v).1 = true ↔ ∃ o ∈ offsets, o - 2048 < v ∧ v < o + 2048)
        ∧ ((value_used offsets v).1 = true → (value_used offsets v).2 = offsets)
        ∧ ((value_used offsets v).1 = false → (value_used offsets v).2 = offsets ++ [v]))
    ∧ (∀ (page needle : List Nat) (used : List Int) (i loc : Nat),
        i + 50 < page.length → sbuf_find_from page needle i = some loc → ¬ loc < 1 →
        (value_used used (loc : Int)).1 = true →
        scan_loop page needle used i = scan_loop page needle used (loc + 4096 + 1))
    ∧ (∀ (page needle : List Nat) (used : List Int) (i loc : Nat),
        i + 50 < page.length → sbuf_find_from page needle i = some loc → ¬ loc < 1 →
        (value_used used (loc : Int)).1 = false →
        scan_loop page needle used i
          = ((if loc > 2048 then loc - 2048 else 0,
              min ((if loc > 2048 then loc - 2048 else 0) + 4096) (page.length - 10)
                - (if loc > 2048 then loc - 2048 else 0))
              :: (scan_loop page needle (used ++ [(loc : Int)]) (loc + 4096 + 1)).1,
             (scan_loop page needle (used ++ [(loc : Int)]) (loc + 4096 + 1)).2))
    ∧ (∀ (page needle : List Nat) (used : List Int) (i : Nat),
        ∀ w ∈ (scan_loop page needle used i).1,
          ∃ loc, 1 ≤ loc ∧ needle.isPrefixOf (page.drop loc) = true
            ∧ w.1 = (if loc > 2048 then loc - 2048 else 0)
            ∧ w.1 + w.2 = min (w.1 + 4096) (page.length - 10)) := by
  refine ⟨?_, scan_loop_suppress, scan_loop_emit, scan_loop_windows⟩
  intro offsets v
  rcases value_used_cases offsets v with ⟨he, hex⟩ | ⟨he, hall⟩
  · refine ⟨⟨fun _ => hex, fun _ => by rw [he]⟩, fun _ => by rw [he], ?_⟩
    intro hf
    rw [he] at hf
    simp at hf
  · refine ⟨⟨?_, ?_⟩, ?_, fun _ => by rw [he]⟩
    · intro ht
      rw [he] at ht
      simp at ht
    · rintro ⟨o, ho, hc⟩
      exact absurd hc (hall o ho)
    · intro ht
      rw [he] at ht
      simp at ht

/-- Witness for C9: on `c9page`, with offset 2000 already recorded, the hit at
30 lies strictly within 2048 of it and is suppressed — the loop just jumps the
cursor past the window. -/
theorem scan_facebook_window_behaviour_witness :
    scan_loop c9page fbNeedle [(2000 : Int)] 0
      = scan_loop c9page fbNeedle [(2000 : Int)] 4127 :=
  scan_facebook_window_behaviour.2.1 c9page fbNeedle [(2000 : Int)] 0 30
    (by decide) (by decide) (by decide) (by decide)

/-- C10: `scan_facebook` tests `location < 1`, so a needle occurrence starting
at buffer offset 0 is treated as not-found: the per-needle loop stops at once
and emits nothing for that needle on that page. -/
theorem scan_facebook_hit_at_zero (page needle : List Nat) (used : List Int)
    (h0 : needle.isPrefixOf page = true) :
    scan_loop page needle used 0 = ([], used) := by
  by_cases h50 : 0 + 50 < page.length
  · have hf : sbuf_find_from page needle 0 = some 0 := by
      unfold sbuf_find_from
      rw [List.drop_zero]
      cases hp : page with
      | nil => rw [hp] at h50; simp at h50
      | cons c cs =>
        rw [hp] at h0
        unfold sbuf_find_aux
        rw [if_pos h0]
    exact scan_loop_low page needle used 0 0 h50 hf (by decide)
  · exact scan_loop_stop page needle used 0 h50

/-- A 100-byte page that begins with the needle. -/
def c10page : List Nat := fbNeedle ++ List.replicate 91 0

/-- Witness for C10: a page starting with `pokesText` yields no feature for
that needle. -/
theorem scan_facebook_hit_at_zero_witness :
    scan_loop c10page fbNeedle [] 0 = ([], []) :=
  scan_facebook_hit_at_zero c10page fbNeedle [] (by decide)


/-! ## scan_ntfsdirs (scan_windirs.cpp lines 282-479)

A candidate MFT record is the 1024-byte slice of the page at each 512-aligned
base.  The `sbuf_t` typed reads (`get8u/16u/32u/64u`, `operator[]`) are
bounds-checked and throw `range_exception_t` past the end; they become
`Except Unit` here, and the per-record `try/catch { continue; }` becomes the
`.error` case contributing no features.  The NTFS constants come from
`tsk3_fatdirs.h` (not in src) and are modelled from the spec; the DFXML value
serializers (`dfxml_writer`, `microsoftDateToISODate`, `safe_utf16to8` of
be13_api) are out-of-scope opaque serializers, modelled injectively.  The
`found_attrs` counter of the source is write-only (it never affects emission,
which tests `mftmap.size() > 3`) and is not represented. -/

/-- Modelled from the spec: `"FILE"` read as a little-endian 32-bit magic. -/
def NTFS_MFT_MAGIC : Nat := 0x454c4946

/-- Modelled from the spec: the resident-attribute flag value. -/
def NTFS_MFT_RES : Nat := 0

/-- Modelled from the spec: `$STANDARD_INFORMATION` (0x10). -/
def NTFS_ATYPE_SI : Nat := 16

/-- Modelled from the spec: `$ATTRIBUTE_LIST` (0x20). -/
def NTFS_ATYPE_ATTRLIST : Nat := 32

/-- Modelled from the spec: `$FILE_NAME` (0x30). -/
def NTFS_ATYPE_FNAME : Nat := 48

/-- Modelled from the spec: `$OBJECT_ID` (0x40). -/
def NTFS_ATYPE_OBJID : Nat := 64

/-- `sizeof(ntfs_attr)`: the 16-byte attribute header. -/
def ntfs_attr_size : Nat := 16

/-- `sbuf_t` bounds-checked byte read (`get8u` / `operator[]`). -/
def get8u (r : List Nat) (off : Nat) : Except Unit Nat :=
  if off + 1 ≤ r.length then .ok (r.getD off 0) else .error ()

/-- `sbuf_t::get16u`: little-endian, bounds-checked. -/
def get16u (r : List Nat) (off : Nat) : Except Unit Nat :=
  if off + 2 ≤ r.length then .ok (r.getD off 0 + r.getD (off + 1) 0 * 256) else .error ()

/-- `sbuf_t::get32u`: little-endian, bounds-checked. -/
def get32u (r : List Nat) (off : Nat) : Except Unit Nat :=
  if off + 4 ≤ r.length then
    .ok (r.getD off 0 + r.getD (off + 1) 0 * 256 + r.getD (off + 2) 0 * 65536
      + r.getD (off + 3) 0 * 16777216)
  else .error ()

/-- `sbuf_t::get64u`: little-endian, bounds-checked. -/
def get64u (r : List Nat) (off : Nat) : Except Unit Nat :=
  if off + 8 ≤ r.length then
    .ok ((List.range 8).foldr (fun i acc => acc * 256 + r.getD (off + i) 0) 0)
  else .error ()

/-- A run of `k` consecutive bounds-checked `operator[]` reads. -/
def sread (r : List Nat) (off k : Nat) : Except Unit (List Nat) :=
  if off + k ≤ r.length then .ok ((r.drop off).take k) else .error ()

/-- Modelled from the spec: the DFXML date serializer is an opaque key-value
serializer (be13_api, not in src); represented injectively by the decimal
64-bit FILETIME value. -/
def microsoftDateToISODate (v : Nat) : String := toString v

/-- Modelled from the spec: opaque UTF-16 → UTF-8 conversion of be13_api. -/
def safe_utf16to8 (units : List Nat) : String := String.mk (units.map Char.ofNat)

/-- A lowercase hex digit. -/
def hexDigitChar (v : Nat) : Char := Char.ofNat (if v < 10 then 48 + v else 87 + v)

/-- `%02x` of a byte. -/
def hex2 (v : Nat) : String := String.mk [hexDigitChar (v / 16 % 16), hexDigitChar (v % 16)]

/-- The canonical mixed-endian Microsoft GUID rendering of lines 424-428. -/
def guidStr (g : List Nat) : String :=
  hex2 (g.getD 3 0) ++ hex2 (g.getD 2 0) ++ hex2 (g.getD 1 0) ++ hex2 (g.getD 0 0) ++ "-"
    ++ hex2 (g.getD 5 0) ++ hex2 (g.getD 4 0) ++ "-"
    ++ hex2 (g.getD 7 0) ++ hex2 (g.getD 6 0) ++ "-"
    ++ hex2 (g.getD 8 0) ++ hex2 (g.getD 9 0) ++ "-"
    ++ hex2 (g.getD 10 0) ++ hex2 (g.getD 11 0) ++ hex2 (g.getD 12 0)
    ++ hex2 (g.getD 13 0) ++ hex2 (g.getD 14 0) ++ hex2 (g.getD 15 0)

/-- `dfxml_writer::strstrmap_t` (a `std::map<string,string>`): association
list with insert-or-replace; its `size()` is the entry count. -/
abbrev Smap := List (String × String)

/-- `mftmap[k] = v`. -/
def mapInsert (m : Smap) (k v : String) : Smap :=
  if m.any (fun p => p.1 = k) then m.map (fun p => if p.1 = k then (k, v) else p)
  else m ++ [(k, v)]

/-- The UTF-16 code-unit loop of lines 392-395: `fname_nlen` successive
`get16u` reads starting at `pos`. -/
def readU16s (r : List Nat) (pos : Nat) : Nat → Except Unit (List Nat)
  | 0 => .ok []
  | k + 1 =>
    match get16u r pos with
    | .error e => .error e
    | .ok v =>
      match readU16s r (pos + 2) k with
      | .error e => .error e
      | .ok vs => .ok (v :: vs)

/-- The body of one resident-attribute case of the `while` loop (lines
342-458).  Returns `(break_walk, mftmap, filename)`: `break_walk` models the
two `break` statements on implausible file sizes. -/
def ntfs_attr_body (n : List Nat) (attr_off attr_type : Nat) (m : Smap) (fname : String) :
    Except Unit (Bool × Smap × String) := do
  if attr_type = NTFS_ATYPE_FNAME then
    let soff ← get16u n (attr_off + 20)
    let pr ← sread n (attr_off + soff) 6
    let par_ref := pr.getD 0 0 + pr.getD 1 0 * 256 + pr.getD 2 0 * 65536
      + pr.getD 3 0 * 16777216 + pr.getD 4 0 * 4294967296 + pr.getD 5 0 * 1099511627776
    let m1 := mapInsert m "par_ref" (toString par_ref)
    let pseq ← get16u n (attr_off + soff + 6)
    let m2 := mapInsert m1 "par_seq" (toString pseq)
    let t1 ← get64u n (attr_off + soff + 8)
    let m3 := mapInsert m2 "crtime_fn" (microsoftDateToISODate t1)
    let t2 ← get64u n (attr_off + soff + 16)
    let m4 := mapInsert m3 "mtime_fn" (microsoftDateToISODate t2)
    let t3 ← get64u n (attr_off + soff + 24)
    let m5 := mapInsert m4 "ctime_fn" (microsoftDateToISODate t3)
    let t4 ← get64u n (attr_off + soff + 32)
    let m6 := mapInsert m5 "atime_fn" (microsoftDateToISODate t4)
    let falloc ← get64u n (attr_off + soff + 40)
    if 1000000000000000 < falloc then
      return (true, m6, fname)
    let m7 := mapInsert m6 "filesize_alloc" (toString falloc)
    let fsize ← get64u n (attr_off + soff + 48)
    if 1000000000000000 < fsize then
      return (true, m7, fname)
    let m8 := mapInsert m7 "filesize" (toString fsize)
    let aflags ← get64u n (attr_off + soff + 56)
    let m9 := mapInsert m8 "attr_flags" (toString aflags)
    let fnlen ← get8u n (attr_off + soff + 64)
    let _fnspace ← get8u n (attr_off + soff + 65)
    let units ← readU16s n (attr_off + soff + 66) fnlen
    let fn2 := safe_utf16to8 units
    return (false, mapInsert m9 "filename" fn2, fn2)
  else if attr_type = NTFS_ATYPE_SI then
    let soff ← get16u n (attr_off + 20)
    let t1 ← get64u n (attr_off + soff + 0)
    let m1 := mapInsert m "crtime_si" (microsoftDateToISODate t1)
    let t2 ← get64u n (attr_off + soff + 8)
    let m2 := mapInsert m1 "mtime_si" (microsoftDateToISODate t2)
    let t3 ← get64u n (attr_off + soff + 16)
    let m3 := mapInsert m2 "ctime_si" (microsoftDateToISODate t3)
    let t4 ← get64u n (attr_off + soff + 24)
    let m4 := mapInsert m3 "atime_si" (microsoftDateToISODate t4)
    return (false, m4, fname)
  else if attr_type = NTFS_ATYPE_OBJID then
    let slen ← get32u n (attr_off + 16)
    let soff ← get16u n (attr_off + 20)
    let m1 ← if 16 ≤ slen then do
        let g ← sread n (attr_off + soff) 16
        pure (mapInsert m "guid_objectid" (guidStr g))
      else pure m
    let m2 ← if 32 ≤ slen then do
        let g ← sread n (attr_off + soff + 16) 16
        pure (mapInsert m1 "guid_birthvolumeid" (guidStr g))
      else pure m1
    let m3 ← if 48 ≤ slen then do
        let g ← sread n (attr_off + soff + 32) 16
        pure (mapInsert m2 "guid_birthobjectid" (guidStr g))
      else pure m2
    let m4 ← if 64 ≤ slen then do
        let g ← sread n (attr_off + soff + 48) 16
        pure (mapInsert m3 "guid_domainid" (guidStr g))
      else pure m3
    return (false, m4, fname)
  else
    return (false, m, fname)

/-- The attribute `while` loop of lines 307-461: stop when the next header
does not fit; abort the walk (keeping the map built so far) on a zero-length
attribute; skip non-resident attributes; otherwise process the attribute and
advance by `attr_len`. -/
def ntfs_attr_walk (n : List Nat) (attr_off : Nat) (m : Smap) (fname : String) :
    Except Unit (Smap × String) :=
  if _h : attr_off + ntfs_attr_size < n.length then
    match get32u n attr_off, get32u n (attr_off + 4) with
    | .ok attr_type, .ok attr_len =>
      if _hlen : attr_len = 0 then .ok (m, fname)
      else
        match get8u n (attr_off + 8), get8u n (attr_off + 9), get16u n (attr_off + 10),
              get16u n (attr_off + 12), get16u n (attr_off + 14) with
        | .ok res, .ok _nlen, .ok _name_off, .ok _mft_flags, .ok _id =>
          if res ≠ NTFS_MFT_RES then ntfs_attr_walk n (attr_off + attr_len) m fname
          else
            match ntfs_attr_body n attr_off attr_type m fname with
            | .error e => .error e
            | .ok (brk, m2, f2) =>
              if brk then .ok (m2, f2)
              else ntfs_attr_walk n (attr_off + attr_len) m2 f2
        | _, _, _, _, _ => .error ()
    | _, _ => .error ()
  else .ok (m, fname)
termination_by n.length - attr_off
decreasing_by
  all_goals simp only [ntfs_attr_size] at _h
  all_goals omega

/-- Processing of one 1024-byte candidate record (lines 292-467): check the
magic and the `nlink < 10` sanity bound, seed the map with nlink/lsn/seq,
walk the attributes, and emit the fileobject when the map has more than three
entries, with `$NOFILENAME` as the fallback name. -/
def ntfs_record (n : List Nat) : Except Unit (Option (String × Smap)) :=
  match get32u n 0 with
  | .error e => .error e
  | .ok magic =>
    if magic = NTFS_MFT_MAGIC then
      match get16u n 16 with
      | .error e => .error e
      | .ok nlink =>
        if nlink < 10 then
          match get64u n 8, get16u n 18 with
          | .ok lsn, .ok seqv =>
            let m0 := mapInsert (mapInsert (mapInsert [] "nlink" (toString nlink))
              "lsn" (toString lsn)) "seq" (toString seqv)
            match get16u n 20 with
            | .error e => .error e
            | .ok attr_off =>
              match ntfs_attr_walk n attr_off m0 "" with
              | .error e => .error e
              | .ok (m, fname) =>
                if m.length > 3 then
                  .ok (some ((if fname = "" then "$NOFILENAME" else fname), m))
                else .ok none
          | _, _ => .error ()
        else .ok none
    else .ok none

/-- The features one candidate base contributes: nothing when the 1024-byte
slice does not fit (`continue`), nothing when a typed read threw
(`catch { continue; }`), nothing without an emission, else one fileobject
at `n.pos0 = base`. -/
def ntfs_record_features (page : List Nat) (base : Nat) : List (Nat × String × Smap) :=
  let r := (page.drop base).take 1024
  if r.length ≠ 1024 then []
  else
    match ntfs_record r with
    | .error _ => []
    | .ok none => []
    | .ok (some (f, m)) => [(base, f, m)]

/-- The base loop of `scan_ntfsdirs` from `base` on (`base += 512`). -/
def ntfs_scan_from (page : List Nat) (pagesize base : Nat) : List (Nat × String × Smap) :=
  if _h : base < pagesize then
    ntfs_record_features page base ++ ntfs_scan_from page pagesize (base + 512)
  else []
termination_by pagesize - base
decreasing_by omega

/-- `scan_ntfsdirs` (lines 282-479): all features of a page. -/
def scan_ntfsdirs (page : List Nat) (pagesize : Nat) : List (Nat × String × Smap) :=
  ntfs_scan_from page pagesize 0


/-! ### C7: error isolation of the candidate-record loop -/

theorem ntfs_record_features_pos {page : List Nat} {base : Nat}
    {x : Nat × String × Smap} (hx : x ∈ ntfs_record_features page base) : x.1 = base := by
  unfold ntfs_record_features at hx
  dsimp only at hx
  split at hx
  · cases hx
  · split at hx
    · cases hx
    · cases hx
    · rcases List.mem_singleton.mp hx with h1
      rw [h1]

theorem mem_ntfs_scan_from (page : List Nat) (pagesize : Nat)
    (x : Nat × String × Smap) (base : Nat) :
    x ∈ ntfs_scan_from page pagesize base
      ↔ ∃ k, x.1 = base + 512 * k ∧ x.1 < pagesize
          ∧ x ∈ ntfs_record_features page x.1 := by
  by_cases h : base < pagesize
  · rw [ntfs_scan_from, dif_pos h]
    constructor
    · intro hx
      rcases List.mem_append.mp hx with hx1 | hx1
      · have hp := ntfs_record_features_pos hx1
        exact ⟨0, by omega, by omega, by rw [hp]; exact hx1⟩
      · rcases (mem_ntfs_scan_from page pagesize x (base + 512)).mp hx1 with ⟨k, h1, h2, h3⟩
        exact ⟨k + 1, by omega, h2, h3⟩
    · rintro ⟨k, h1, h2, h3⟩
      apply List.mem_append.mpr
      cases k with
      | zero =>
        left
        have hb : x.1 = base := by omega
        rw [hb] at h3
        exact h3
      | succ k2 =>
        right
        exact (mem_ntfs_scan_from page pagesize x (base + 512)).mpr
          ⟨k2, by omega, h2, h3⟩
  · rw [ntfs_scan_from, dif_neg h]
    constructor
    · intro hx
      cases hx
    · rintro ⟨k, h1, h2, h3⟩
      exact absurd h2 (by omega)
termination_by pagesize - base
decreasing_by all_goals omega

/-- C7: the candidate-record loop of `scan_ntfsdirs` isolates failures per
record: (i) a feature is emitted exactly when its own 512-aligned candidate
emits it — an out-of-range typed read inside one candidate (the `.error`
case of `ntfs_record`) removes only that candidate's contribution, and the
scan continues with the other candidates of the page; (ii) a candidate's
contribution depends only on its own 1024-byte slice, so no typed read on it
observes anything outside those bytes; (iii) a zero-length attribute header
aborts only the current record's attribute walk, returning the fields decoded
so far. -/
theorem scan_ntfsdirs_error_isolation :
    (∀ (page : List Nat) (pagesize : Nat) (x : Nat × String × Smap),
        x ∈ scan_ntfsdirs page pagesize
          ↔ ∃ k, x.1 = 512 * k ∧ x.1 < pagesize ∧ x ∈ ntfs_record_features page x.1)
    ∧ (∀ (p q : List Nat) (base : Nat),
        (p.drop base).take 1024 = (q.drop base).take 1024 →
        ntfs_record_features p base = ntfs_record_features q base)
    ∧ (∀ (r : List Nat) (off : Nat) (m : Smap) (fname : String),
        off + ntfs_attr_size < r.length → get32u r (off + 4) = .ok 0 →
        ntfs_attr_walk r off m fname = .ok (m, fname)) := by
  refine ⟨?_, ?_, ?_⟩
  · intro page pagesize x
    unfold scan_ntfsdirs
    rw [mem_ntfs_scan_from]
    constructor
    · rintro ⟨k, h1, h2, h3⟩
      exact ⟨k, by omega, h2, h3⟩
    · rintro ⟨k, h1, h2, h3⟩
      exact ⟨k, by omega, h2, h3⟩
  · intro p q base hpq
    unfold ntfs_record_features
    rw [hpq]
  · intro r off m fname hfit hzero
    rw [ntfs_attr_walk, dif_pos hfit]
    have hfirst : ∃ t, get32u r off = .ok t := by
      unfold get32u
      rw [if_pos (by simp only [ntfs_attr_size] at hfit; omega)]
      exact ⟨_, rfl⟩
    rcases hfirst with ⟨t, ht⟩
    rw [ht, hzero]
    simp

/-- Witness for C7 at a concrete all-zero candidate: the attribute header at
offset 100 has length 0, so the walk returns the accumulated state. -/
theorem scan_ntfsdirs_error_isolation_witness :
    ntfs_attr_walk (List.replicate 1024 0) 100 [] "" = .ok ([], "") :=
  scan_ntfsdirs_error_isolation.2.2 (List.replicate 1024 0) 100 [] ""
    (by simp [ntfs_attr_size]) (by rfl)

end BulkExtractor
